import Mathlib

/-!
Verification development for the BeltaSpider news crawler
(`src/belta/spiders/belta_spider.py`).

Strings are modelled as `List Char`; Python text operations (`lower`,
`strip`, `split`, substring `in`, `re` patterns) are translated to
executable Lean functions over `List Char`.  Machine-level concerns do not
arise: all arithmetic is on small `Nat` values (calendar fields).

The regular expressions of the source are handled two ways:
* the simple FIO pattern `([А-ЯЁ][а-яё]+(?:\s+[А-ЯЁ][а-яё]+){1,2})`, whose
  character classes are pairwise disjoint at every choice point and which
  therefore matches deterministically, is translated as a direct scanner;
* every other pattern runs on a small backtracking engine (`Re` below)
  whose candidate list is ordered exactly like Python `re` backtracking
  (leftmost start, greedy longest-first / lazy shortest-first, alternation
  left-first), with `head?` giving Python's match.
-/

namespace Belta

/-- Turn a string literal into the `List Char` representation used throughout. -/
def cl (s : String) : List Char := s.data

/-! ## Character classes (modelled on Python `str`/`re` over the source's data:
ASCII plus the Russian alphabet; codepoints are compared as naturals). -/

/-- Python `\s` on the source's data: space, TAB, LF, VT, FF, CR. -/
def isWsCh (c : Char) : Bool :=
  c.toNat == 32 || c.toNat == 9 || c.toNat == 10 || c.toNat == 11 ||
  c.toNat == 12 || c.toNat == 13

/-- ASCII digit, Python `\d` on the source's data. -/
def isDigitCh (c : Char) : Bool := 48 ≤ c.toNat && c.toNat ≤ 57

/-- The regex class `[А-ЯЁ]` (uppercase Russian letters, U+0410–U+042F and Ё). -/
def isUpperCyr (c : Char) : Bool :=
  (0x410 ≤ c.toNat && c.toNat ≤ 0x42F) || c.toNat == 0x401

/-- The regex class `[а-яё]` (lowercase Russian letters, U+0430–U+044F and ё). -/
def isLowerCyr (c : Char) : Bool :=
  (0x430 ≤ c.toNat && c.toNat ≤ 0x44F) || c.toNat == 0x451

/-- Python `str.lower` restricted to the alphabets the source manipulates
(ASCII and Russian); other characters are unchanged. -/
def charLower (c : Char) : Char :=
  if 65 ≤ c.toNat ∧ c.toNat ≤ 90 then Char.ofNat (c.toNat + 32)
  else if 0x410 ≤ c.toNat ∧ c.toNat ≤ 0x42F then Char.ofNat (c.toNat + 32)
  else if c.toNat = 0x401 then Char.ofNat 0x451
  else c

/-- Python `str.lower` over a whole string. -/
def lowerStr (s : List Char) : List Char := s.map charLower

/-- Python substring test `needle in hay`. -/
def strContains (hay needle : List Char) : Bool :=
  match hay with
  | [] => needle.isEmpty
  | _ :: t => leadsWith needle hay || strContains t needle
where
  /-- `leadsWith n h` : `n` is an initial segment of `h`. -/
  leadsWith : List Char → List Char → Bool
    | [], _ => true
    | _ :: _, [] => false
    | a :: as, b :: bs => a == b && leadsWith as bs

/-- Python `str.strip()` (trim leading and trailing whitespace). -/
def stripWs (s : List Char) : List Char :=
  ((s.dropWhile isWsCh).reverse.dropWhile isWsCh).reverse

/-- Python `re.sub(r'\s+', ' ', s)`: collapse every whitespace run to one space. -/
def collapseWs (s : List Char) : List Char := go false s
where
  go : Bool → List Char → List Char
    | _, [] => []
    | inRun, c :: t =>
      if isWsCh c then (if inRun then go true t else ' ' :: go true t)
      else c :: go false t

/-- Python `' '.join(parts)`. -/
def joinSpace : List (List Char) → List Char
  | [] => []
  | [p] => p
  | p :: q :: r => p ++ ' ' :: joinSpace (q :: r)

/-- Python `str.split()` (split on whitespace runs, dropping empty pieces). -/
def splitWs (s : List Char) : List (List Char) := go [] s
where
  go : List Char → List Char → List (List Char)
    | cur, [] => if cur.isEmpty then [] else [cur.reverse]
    | cur, c :: t =>
      if isWsCh c then
        (if cur.isEmpty then go [] t else cur.reverse :: go [] t)
      else go (c :: cur) t

/-- Value of a digit string (callers guarantee digits). -/
def natOfDigits (s : List Char) : Nat :=
  s.foldl (fun a c => a * 10 + (c.toNat - 48)) 0

/-- Python `int(s)` on an already-stripped string, as used by the source
(digit sequences only; failure models `ValueError`). -/
def toNatOpt (s : List Char) : Option Nat :=
  if s.isEmpty then none
  else if s.all isDigitCh then some (natOfDigits s) else none

/-! ## Calendar datetimes (Python `datetime.datetime`) -/

/-- A `datetime.datetime` value (no sub-second fields are used by the source). -/
structure DateTime where
  year : Nat
  month : Nat
  day : Nat
  hour : Nat
  minute : Nat
  second : Nat
deriving DecidableEq, Repr

/-- `a.date() < b.date()`. -/
def dateLt (a b : DateTime) : Bool :=
  a.year < b.year ||
  (a.year == b.year && (a.month < b.month ||
    (a.month == b.month && a.day < b.day)))

/-- `a.date() == b.date()`. -/
def dateEq (a b : DateTime) : Bool :=
  a.year == b.year && a.month == b.month && a.day == b.day

/-- Gregorian leap year, as `datetime` uses. -/
def isLeapY (y : Nat) : Bool := y % 4 == 0 && (y % 100 != 0 || y % 400 == 0)

/-- Length of a month, as `datetime` uses. -/
def daysInMonth (y m : Nat) : Nat :=
  if m == 2 then (if isLeapY y then 29 else 28)
  else if m == 4 || m == 6 || m == 9 || m == 11 then 30
  else 31

/-- The `datetime(year, month, day, hour, minute, second)` constructor;
`none` models the `ValueError` it raises on out-of-range fields. -/
def mkDatetime (y mo d h mi s : Nat) : Option DateTime :=
  if 1 ≤ y && y ≤ 9999 && 1 ≤ mo && mo ≤ 12 && 1 ≤ d && d ≤ daysInMonth y mo
      && h ≤ 23 && mi ≤ 59 && s ≤ 59 then
    some ⟨y, mo, d, h, mi, s⟩
  else none

/-! ## Keyword data of `BeltaSpider.__init__` -/

/-- `self.RELEVANT_CATEGORIES`. -/
def RELEVANT_CATEGORIES : List (List Char) :=
  [cl "президент", cl "политика", cl "власть", cl "кадровые решения",
   cl "назначения", cl "указ", cl "государство"]

/-- `self.APPOINTMENT_PATTERNS`. -/
def APPOINTMENT_PATTERNS : List (List Char) :=
  [cl "президент назначил",
   cl "указом президента назначен",
   cl "президент принял кадровые решения",
   cl "назначен на должность",
   cl "освобожден от должности",
   cl "освобождён от должности",
   cl "назначена на должность",
   cl "назначен",
   cl "назначена",
   cl "назначены",
   cl "присвоено звание",
   cl "присвоен класс",
   cl "назначение",
   cl "кадровые решения",
   cl "перемещение",
   cl "увольнение",
   cl "отставка"]

/-! ## `is_presidential_appointment` -/

/-- `BeltaSpider.is_presidential_appointment`: lowercase the text, then
require a category keyword and an appointment keyword as substrings. -/
def is_presidential_appointment (text : List Char) : Bool :=
  let text_lower := lowerStr text
  let has_category := RELEVANT_CATEGORIES.any (fun category => strContains text_lower category)
  let has_appointment := APPOINTMENT_PATTERNS.any (fun pattern => strContains text_lower pattern)
  has_category && has_appointment

/-! ## Listing items and `extract_item_date` -/

/-- The DOM data of one `.lenta_item` listing entry, as queried by the
source: the `.new_date` block with its `.day` / `.month_year` text nodes,
the `.lenta_item_title` span with its text nodes, the link attribute, and
the `.lenta_textsmall` snippet block with its text nodes.  `none` models an
absent element/attribute; for text collections the stored list is
`getall()`, whose head is `get()`. -/
structure ListingItem where
  has_new_date : Bool
  day_text : Option (List Char)
  month_year_text : Option (List Char)
  has_title_span : Bool
  title_texts : List (List Char)
  link : Option (List Char)
  snippet_texts : Option (List (List Char))
deriving DecidableEq, Repr

/-- `BeltaSpider.extract_item_date`.  Translated line by line: the cleanup
`month_year.strip().replace('.', '').strip()` removes every dot, after
which `month_year.split('.')` is taken and only a two-part result is
parsed (two-digit year pivot: ≥ 50 ↦ 1900+, < 50 ↦ 2000+); `int` and
`datetime` failures (`ValueError`) yield `None`. -/
def extract_item_date (item : ListingItem) : Option DateTime :=
  if item.has_new_date then
    match item.day_text, item.month_year_text with
    | some day, some month_year =>
      if day.isEmpty || month_year.isEmpty then none
      else
        let day' := stripWs day
        let month_year' := stripWs ((stripWs month_year).filter (fun c => !(c == '.')))
        let parts := month_year'.splitOn '.'
        if parts.length == 2 then
          match toNatOpt (parts.getD 0 []), toNatOpt (parts.getD 1 []),
                toNatOpt day' with
          | some month, some year_short, some day_int =>
            let year := if year_short ≥ 50 then 1900 + year_short else 2000 + year_short
            mkDatetime year month day_int 0 0 0
          | _, _, _ => none
        else none
    | _, _ => none
  else none

/-! ## A small backtracking regex engine

`reMatches re s` lists every way `re` can match a prefix of `s`, in exactly
Python `re`'s backtracking order, so its head is Python's match at this
position.  All repetitions in the source's patterns quantify single
character classes, so `plus`/`star` enumerate the possible run lengths
(greedy: longest first; lazy: shortest first).  `lit` compares
case-insensitively: the only case-sensitive literals in the source's
patterns are punctuation and digits, for which the comparison coincides,
while `re.IGNORECASE` patterns and `strptime` (whose compiled pattern is
IGNORECASE) need the folding. -/

/-- Regex abstract syntax sufficient for the source's patterns. -/
inductive Re where
  | lit : List Char → Re
  | cls : (Char → Bool) → Re
  | plusG : (Char → Bool) → Re
  | plusL : (Char → Bool) → Re
  | starG : (Char → Bool) → Re
  | seq : Re → Re → Re
  | alt : Re → Re → Re
  | opt : Re → Re
  | grp : Nat → Re → Re

/-- Captured groups: group index ↦ captured text (first binding wins). -/
abbrev Caps := List (Nat × List Char)

/-- Case-insensitive character comparison (see `Re`). -/
def ciEq (a b : Char) : Bool := charLower a == charLower b

/-- Case-insensitive "is initial segment" test for `Re.lit`. -/
def ciLeads : List Char → List Char → Bool
  | [], _ => true
  | _ :: _, [] => false
  | a :: as, b :: bs => ciEq a b && ciLeads as bs

/-- All matches of `re` against a prefix of `s`, each as (captures,
remaining suffix), ordered by backtracking priority. -/
def reMatches : Re → List Char → List (Caps × List Char)
  | .lit l, s => if ciLeads l s then [([], s.drop l.length)] else []
  | .cls p, s =>
    match s with
    | [] => []
    | c :: r => if p c then [([], r)] else []
  | .plusG p, s =>
    let n := (s.takeWhile p).length
    (List.range n).map (fun i => ([], s.drop (n - i)))
  | .plusL p, s =>
    let n := (s.takeWhile p).length
    (List.range n).map (fun i => ([], s.drop (i + 1)))
  | .starG p, s =>
    let n := (s.takeWhile p).length
    (List.range (n + 1)).map (fun i => ([], s.drop (n - i)))
  | .seq a b, s =>
    (reMatches a s).flatMap (fun pr =>
      (reMatches b pr.2).map (fun qr => (pr.1 ++ qr.1, qr.2)))
  | .alt a b, s => reMatches a s ++ reMatches b s
  | .opt a, s => reMatches a s ++ [([], s)]
  | .grp i a, s =>
    (reMatches a s).map (fun pr =>
      ((i, s.take (s.length - pr.2.length)) :: pr.1, pr.2))

/-- `re.search`: captures of the match at the leftmost start position where
one exists (Python's search). -/
def reSearch (re : Re) : List Char → Option Caps
  | [] => ((reMatches re []).head?).map (fun pr => pr.1)
  | c :: t =>
    match (reMatches re (c :: t)).head? with
    | some pr => some pr.1
    | none => reSearch re t

/-- Look up one captured group. -/
def capGet (caps : Caps) (i : Nat) : Option (List Char) :=
  (caps.find? (fun pr => pr.1 == i)).map (fun pr => pr.2)

/-- Captured group with default `""` (callers guarantee presence). -/
def capD (caps : Caps) (i : Nat) : List Char := (capGet caps i).getD []

/-- Group 1 of the leftmost match, or `none`: the value Python's
`re.findall(p, t)[0]` yields for a single-group pattern `p` (and whose
presence is the `if matches:` test). -/
def reFirstGroup (re : Re) (s : List Char) : Option (List Char) :=
  (reSearch re s).bind (fun caps => capGet caps 1)

/-! ## Date text parsing (`parse_date_full_format`, `parse_date_string`) -/

/-- The `ru_months` table. -/
def RU_MONTHS : List (List Char × Nat) :=
  [(cl "января", 1), (cl "февраля", 2), (cl "марта", 3), (cl "апреля", 4),
   (cl "мая", 5), (cl "июня", 6), (cl "июля", 7), (cl "августа", 8),
   (cl "сентября", 9), (cl "октября", 10), (cl "ноября", 11), (cl "декабря", 12)]

/-- `month_ru in ru_months` plus the lookup. -/
def ruMonthNum (m : List Char) : Option Nat :=
  (RU_MONTHS.find? (fun pr => pr.1 == m)).map (fun pr => pr.2)

/-- `\d{1,2}` (greedy). -/
def reD12 : Re := .seq (.cls isDigitCh) (.opt (.cls isDigitCh))

/-- `\d{2}`. -/
def reDD : Re := .seq (.cls isDigitCh) (.cls isDigitCh)

/-- `\d{4}`. -/
def reD4 : Re := .seq reDD reDD

/-- `\s+`. -/
def reWsP : Re := .plusG isWsCh

/-- `(\d{1,2})\s+([а-яё]+)\s+(\d{4})(?:,\s+(\d{1,2}):(\d{2}))?`
— the `date_full` pattern of `parse_date_full_format`. -/
def dateFullRe : Re :=
  .seq (.grp 1 reD12) (.seq reWsP (.seq (.grp 2 (.plusG isLowerCyr))
    (.seq reWsP (.seq (.grp 3 reD4)
      (.opt (.seq (.lit (cl ",")) (.seq reWsP
        (.seq (.grp 4 reD12) (.seq (.lit (cl ":")) (.grp 5 reDD))))))))))

/-- `(\d{1,2})\s+([а-яё]+)\s+(\d{4})` — the Russian-month fallback pattern
of `parse_date_string`. -/
def ruDateRe : Re :=
  .seq (.grp 1 reD12) (.seq reWsP (.seq (.grp 2 (.plusG isLowerCyr))
    (.seq reWsP (.grp 3 reD4))))

/-- `BeltaSpider.parse_date_full_format`: collapse whitespace, strip,
search the long-form pattern in the lowercased string, optional time. -/
def parse_date_full_format (date_string : List Char) : Option DateTime :=
  let s := stripWs (collapseWs date_string)
  match reSearch dateFullRe (lowerStr s) with
  | none => none
  | some caps =>
    let day := natOfDigits (capD caps 1)
    let month_ru := capD caps 2
    let year := natOfDigits (capD caps 3)
    match capGet caps 4, capGet caps 5 with
    | some h, some mi =>
      match ruMonthNum month_ru with
      | some mo => mkDatetime year mo day (natOfDigits h) (natOfDigits mi) 0
      | none => none
    | _, _ =>
      match ruMonthNum month_ru with
      | some mo => mkDatetime year mo day 0 0 0
      | none => none

/-! Python `strptime` directives compile to these (IGNORECASE) regexes;
whitespace in a format string matches `\s+`. -/

/-- `%Y` ↦ `\d\d\d\d`, as group 1. -/
def reFmtY : Re := .grp 1 reD4

/-- `%m` ↦ `1[0-2]|0[1-9]|[1-9]`, as group 2. -/
def reFmtMo : Re :=
  .grp 2 (.alt (.seq (.lit (cl "1")) (.cls (fun c => 48 ≤ c.toNat && c.toNat ≤ 50)))
    (.alt (.seq (.lit (cl "0")) (.cls (fun c => 49 ≤ c.toNat && c.toNat ≤ 57)))
      (.cls (fun c => 49 ≤ c.toNat && c.toNat ≤ 57))))

/-- `%d` ↦ `3[01]|[12]\d|0[1-9]|[1-9]`, as group 3. -/
def reFmtD : Re :=
  .grp 3 (.alt (.seq (.lit (cl "3")) (.cls (fun c => c.toNat == 48 || c.toNat == 49)))
    (.alt (.seq (.cls (fun c => c.toNat == 49 || c.toNat == 50)) (.cls isDigitCh))
      (.alt (.seq (.lit (cl "0")) (.cls (fun c => 49 ≤ c.toNat && c.toNat ≤ 57)))
        (.cls (fun c => 49 ≤ c.toNat && c.toNat ≤ 57)))))

/-- `%H` ↦ `2[0-3]|[0-1]\d|\d`, as group 4. -/
def reFmtH : Re :=
  .grp 4 (.alt (.seq (.lit (cl "2")) (.cls (fun c => 48 ≤ c.toNat && c.toNat ≤ 51)))
    (.alt (.seq (.cls (fun c => c.toNat == 48 || c.toNat == 49)) (.cls isDigitCh))
      (.cls isDigitCh)))

/-- `%M` ↦ `[0-5]\d|\d`, as group 5. -/
def reFmtMi : Re :=
  .grp 5 (.alt (.seq (.cls (fun c => 48 ≤ c.toNat && c.toNat ≤ 53)) (.cls isDigitCh))
    (.cls isDigitCh))

/-- `%S` ↦ `6[0-1]|[0-5]\d|\d`, as group 6. -/
def reFmtS : Re :=
  .grp 6 (.alt (.seq (.lit (cl "6")) (.cls (fun c => c.toNat == 48 || c.toNat == 49)))
    (.alt (.seq (.cls (fun c => 48 ≤ c.toNat && c.toNat ≤ 53)) (.cls isDigitCh))
      (.cls isDigitCh)))

/-- `'%Y-%m-%dT%H:%M:%S'`. -/
def fmtIso : Re :=
  .seq reFmtY (.seq (.lit (cl "-")) (.seq reFmtMo (.seq (.lit (cl "-"))
    (.seq reFmtD (.seq (.lit (cl "T")) (.seq reFmtH (.seq (.lit (cl ":"))
      (.seq reFmtMi (.seq (.lit (cl ":")) reFmtS)))))))))

/-- `'%Y-%m-%d %H:%M:%S'`. -/
def fmtYmdHms : Re :=
  .seq reFmtY (.seq (.lit (cl "-")) (.seq reFmtMo (.seq (.lit (cl "-"))
    (.seq reFmtD (.seq reWsP (.seq reFmtH (.seq (.lit (cl ":"))
      (.seq reFmtMi (.seq (.lit (cl ":")) reFmtS)))))))))

/-- `'%d.%m.%Y %H:%M'`. -/
def fmtDmyHm : Re :=
  .seq reFmtD (.seq (.lit (cl ".")) (.seq reFmtMo (.seq (.lit (cl "."))
    (.seq reFmtY (.seq reWsP (.seq reFmtH (.seq (.lit (cl ":")) reFmtMi)))))))

/-- `'%d.%m.%Y'`. -/
def fmtDmy : Re :=
  .seq reFmtD (.seq (.lit (cl ".")) (.seq reFmtMo (.seq (.lit (cl ".")) reFmtY)))

/-- `'%d %m %Y'`. -/
def fmtDmySp : Re :=
  .seq reFmtD (.seq reWsP (.seq reFmtMo (.seq reWsP reFmtY)))

/-- The `date_formats` list, in order. -/
def date_formats : List Re := [fmtIso, fmtYmdHms, fmtDmyHm, fmtDmy, fmtDmySp]

/-- `datetime.strptime(s, fmt)`: the pattern's first match anchored at the
start must consume the whole string; the `datetime` constructor may still
reject the fields (`ValueError`, caught by the caller's loop). -/
def strptimeOne (re : Re) (s : List Char) : Option DateTime :=
  match (reMatches re s).head? with
  | some (caps, rest) =>
    if rest.isEmpty then
      mkDatetime (natOfDigits (capD caps 1)) (natOfDigits (capD caps 2))
        (natOfDigits (capD caps 3))
        (((capGet caps 4).map natOfDigits).getD 0)
        (((capGet caps 5).map natOfDigits).getD 0)
        (((capGet caps 6).map natOfDigits).getD 0)
    else none
  | none => none

/-- The `for fmt in date_formats: try strptime` loop. -/
def strptimeLoop (s : List Char) : List Re → Option DateTime
  | [] => none
  | f :: fs =>
    match strptimeOne f s with
    | some d => some d
    | none => strptimeLoop s fs

/-- `BeltaSpider.parse_date_string`: empty check, strip, the template loop,
then the Russian-month substring search on the lowercased string. -/
def parse_date_string (date_string : List Char) : Option DateTime :=
  if date_string.isEmpty then none
  else
    let s := stripWs date_string
    match strptimeLoop s date_formats with
    | some d => some d
    | none =>
      match reSearch ruDateRe (lowerStr s) with
      | none => none
      | some caps =>
        match ruMonthNum (capD caps 2) with
        | some mo => mkDatetime (natOfDigits (capD caps 3)) mo
            (natOfDigits (capD caps 1)) 0 0 0
        | none => none

/-! ## Article pages: content and date extraction -/

/-- The DOM data of one article page, as queried by the source.
`article_body_texts`: `div[itemprop="articleBody"] ::text` results (`none`
when the element is absent).  `content_fallbacks`: for each of the eight
fallback content selectors (`.article-text`, `.news-text`, `.content`,
`article`, `.post-content`, `#article-content`, `.detail-text`, `.text`,
in that order), `none` when the selector matches nothing, else the
`p::text` results inside it.  `all_p_texts`: every `p::text` of the page.
`date_full_text`: `.date_full::text` (first node).  `date_fallbacks`: the
first result of each of the seven fallback date selectors
(`time::attr(datetime)`, `.date::text`, `.news-date::text`,
`.publication-date::text`, `meta[property="article:published_time"]
::attr(content)`, `.meta-date::text`, `.article-date::text`, in that
order). -/
structure ArticleResponse where
  article_body_texts : Option (List (List Char))
  content_fallbacks : List (Option (List (List Char)))
  all_p_texts : List (List Char)
  date_full_text : Option (List Char)
  date_fallbacks : List (Option (List Char))
deriving DecidableEq, Repr

/-- The fallback-selector loop of `extract_article_content`: the first
selector that is present *and* has at least one `p::text` wins. -/
def contentFallbackLoop : List (Option (List (List Char))) → Option (List Char)
  | [] => none
  | none :: rest => contentFallbackLoop rest
  | some paragraphs :: rest =>
    if paragraphs.isEmpty then contentFallbackLoop rest
    else some (stripWs (joinSpace paragraphs))

/-- `BeltaSpider.extract_article_content`: the `articleBody` element (all
its text nodes, stripped, empties dropped, space-joined), else the first
productive fallback selector, else all `p` texts, else `""`. -/
def extract_article_content (r : ArticleResponse) : List Char :=
  match r.article_body_texts with
  | some all_text =>
    if all_text.isEmpty then extract_article_content_rest r
    else joinSpace ((all_text.map stripWs).filter (fun t => !t.isEmpty))
  | none => extract_article_content_rest r
where
  /-- The part of `extract_article_content` after the `articleBody` attempt. -/
  extract_article_content_rest (r : ArticleResponse) : List Char :=
    match contentFallbackLoop r.content_fallbacks with
    | some content => content
    | none =>
      if r.all_p_texts.isEmpty then []
      else stripWs (joinSpace r.all_p_texts)

/-- The fallback-selector loop of `extract_article_date`: each selector's
text (when present and nonempty) is given to `parse_date_string`; the
first parse success wins. -/
def dateFallbackLoop : List (Option (List Char)) → Option DateTime
  | [] => none
  | none :: rest => dateFallbackLoop rest
  | some t :: rest =>
    if t.isEmpty then dateFallbackLoop rest
    else
      match parse_date_string (stripWs t) with
      | some d => some d
      | none => dateFallbackLoop rest

/-- The primary date strategy of `extract_article_date`: the `.date_full`
text (when present and nonempty) through `parse_date_full_format`. -/
def primaryDateCandidate (r : ArticleResponse) : Option DateTime :=
  match r.date_full_text with
  | some t => if t.isEmpty then none else parse_date_full_format (stripWs t)
  | none => none

/-- `BeltaSpider.extract_article_date`: `.date_full` through
`parse_date_full_format`, then the seven fallback selectors through
`parse_date_string`, and `datetime.now()` (`now`) when everything fails. -/
def extract_article_date (r : ArticleResponse) (now : DateTime) : DateTime :=
  match primaryDateCandidate r with
  | some d => d
  | none =>
    match dateFallbackLoop r.date_fallbacks with
    | some d => d
    | none => now

/-- `BeltaSpider.check_is_today` (its argument is always an actual
`datetime` here, so the `if not pub_date` guard of the source never
fires). -/
def check_is_today (pub_date : DateTime) (today : DateTime) : Bool :=
  dateEq pub_date today

/-- A notification triple. -/
structure Notification where
  header : List Char
  text : List Char
  source : List Char
deriving DecidableEq, Repr

/-- The constant notification header. -/
def NOTIFICATION_HEADER : List Char :=
  cl "Новое назначение Президента Республики Беларусь"

/-- `BeltaSpider.create_notification`. -/
def create_notification (fio position url : List Char) : Notification :=
  { header := NOTIFICATION_HEADER,
    text := cl "Опубликовано новое кадровое решение: " ++ fio ++
      cl ", назначен(а) на должность " ++ position ++
      cl ". Необходимо подготовить поздравление.",
    source := url }

/-! ## FIO extraction

`FIO_PATTERN = r'([А-ЯЁ][а-яё]+(?:\s+[А-ЯЁ][а-яё]+){1,2})'`.  At every
choice point of this pattern the follow-up character classes are disjoint
(lowercase letters / whitespace / uppercase letters), so greedy matching
never backtracks and `re.findall`'s leftmost non-overlapping semantics is
the direct scanner below. -/

/-- Maximal `[а-яё]` run and the remainder. -/
def takeLowers : List Char → List Char × List Char
  | [] => ([], [])
  | c :: t =>
    if isLowerCyr c then
      let pr := takeLowers t
      (c :: pr.1, pr.2)
    else ([], c :: t)

/-- Maximal `\s` run and the remainder. -/
def takeSpacesF : List Char → List Char × List Char
  | [] => ([], [])
  | c :: t =>
    if isWsCh c then
      let pr := takeSpacesF t
      (c :: pr.1, pr.2)
    else ([], c :: t)

/-- One word `[А-ЯЁ][а-яё]+`: the matched word and the remainder. -/
def matchWord : List Char → Option (List Char × List Char)
  | [] => none
  | c :: t =>
    if isUpperCyr c then
      let pr := takeLowers t
      if pr.1.isEmpty then none else some (c :: pr.1, pr.2)
    else none

/-- One repetition `\s+[А-ЯЁ][а-яё]+`: the consumed text and the remainder. -/
def matchExt (s : List Char) : Option (List Char × List Char) :=
  let sp := takeSpacesF s
  if sp.1.isEmpty then none
  else
    match matchWord sp.2 with
    | some pr => some (sp.1 ++ pr.1, pr.2)
    | none => none

/-- The whole FIO pattern at this position: the matched text (2–3 words)
and the remainder. -/
def matchFio (s : List Char) : Option (List Char × List Char) :=
  match matchWord s with
  | none => none
  | some (w1, r1) =>
    match matchExt r1 with
    | none => none
    | some (e2, r2) =>
      match matchExt r2 with
      | some (e3, r3) => some (w1 ++ e2 ++ e3, r3)
      | none => some (w1 ++ e2, r2)

/-- `re.findall(FIO_PATTERN, s)`: leftmost, non-overlapping.  The fuel is
the input length; every match consumes at least one character, so
`fioFindAllAux (s.length) s` never hits the fuel bound. -/
def fioFindAllAux : Nat → List Char → List (List Char)
  | 0, _ => []
  | _ + 1, [] => []
  | fuel + 1, c :: t =>
    match matchFio (c :: t) with
    | some (m, rest) => m :: fioFindAllAux fuel rest
    | none => fioFindAllAux fuel t

/-- All FIO-pattern matches of `s`, in order. -/
def fioFindAll (s : List Char) : List (List Char) := fioFindAllAux s.length s

/-- A nonempty run of non-whitespace characters (as every matched
`[А-ЯЁ][а-яё]+` word is). -/
def NonWsWord (w : List Char) : Prop :=
  w ≠ [] ∧ ∀ c ∈ w, isWsCh c = false

/-- A nonempty run of whitespace characters (as every matched `\s+`
separator is). -/
def WsRun (sp : List Char) : Prop :=
  sp ≠ [] ∧ ∀ c ∈ sp, isWsCh c = true

/-- The shape of every FIO-pattern match: two or three words joined by
whitespace runs. -/
def FioShape (m : List Char) : Prop :=
  ∃ w1 sp2 w2 t, m = w1 ++ sp2 ++ w2 ++ t ∧
    NonWsWord w1 ∧ WsRun sp2 ∧ NonWsWord w2 ∧
    (t = [] ∨ ∃ sp3 w3, t = sp3 ++ w3 ∧ WsRun sp3 ∧ NonWsWord w3)

/-- The `excluded_words` list of `extract_fio`. -/
def EXCLUDED_WORDS : List (List Char) :=
  [cl "Президент", cl "Республики", cl "Беларусь", cl "Комитет", cl "Совет",
   cl "Министерство", cl "Государственный", cl "Национальный", cl "Администрация"]

/-- The sentinel returned when no name is found. -/
def FIO_SENTINEL : List Char := cl "Не удалось определить ФИО"

/-- The per-candidate test of `extract_fio`'s loop: 2–3 words after
`match.split()`, and no excluded word occurs in the match (Python `in`:
substring). -/
def fioAccept (m : List Char) : Bool :=
  (2 ≤ (splitWs m).length && (splitWs m).length ≤ 3) &&
  !(EXCLUDED_WORDS.any (fun excluded => strContains m excluded))

/-- `BeltaSpider.extract_fio` (the `title` argument is accepted and unused,
as in the source). -/
def extract_fio (full_text : List Char) (title : List Char) : List Char :=
  match (fioFindAll full_text).find? fioAccept with
  | some m => stripWs m
  | none => FIO_SENTINEL

/-- C6's reading of the spec: candidates in first-match order, reject those
containing an excluded institutional word, return the first survivor, else
the sentinel. -/
def extract_fio_specModel (full_text : List Char) : List Char :=
  match (fioFindAll full_text).find?
      (fun m => !(EXCLUDED_WORDS.any (fun excluded => strContains m excluded))) with
  | some m => m
  | none => FIO_SENTINEL

/-! ## Position extraction -/

/-- `[^.]`. -/
def isNonDot (c : Char) : Bool := !(c == '.')

/-- `(?:председатель|начальник|министр|руководитель|директор|заместитель|советник|помощник|представитель)`. -/
def posNounAlt : Re :=
  .alt (.lit (cl "председатель")) (.alt (.lit (cl "начальник"))
    (.alt (.lit (cl "министр")) (.alt (.lit (cl "руководитель"))
      (.alt (.lit (cl "директор")) (.alt (.lit (cl "заместитель"))
        (.alt (.lit (cl "советник")) (.alt (.lit (cl "помощник"))
          (.lit (cl "представитель")))))))))

/-- `r'на должность\s+([^.]+)'` (IGNORECASE). -/
def posPat1 : Re :=
  .seq (.lit (cl "на должность")) (.seq reWsP (.grp 1 (.plusG isNonDot)))

/-- `r'назначен\s+([^.]+)'` (IGNORECASE). -/
def posPat2 : Re :=
  .seq (.lit (cl "назначен")) (.seq reWsP (.grp 1 (.plusG isNonDot)))

/-- `r'назначена\s+([^.]+)'` (IGNORECASE). -/
def posPat3 : Re :=
  .seq (.lit (cl "назначена")) (.seq reWsP (.grp 1 (.plusG isNonDot)))

/-- `r'–\s+([^.]+?\s+(?:…)[^.]+)'` (IGNORECASE): en-dash variant. -/
def posPat4 : Re :=
  .seq (.lit (cl "–")) (.seq reWsP (.grp 1 (.seq (.plusL isNonDot)
    (.seq reWsP (.seq posNounAlt (.plusG isNonDot))))))

/-- `r'—\s+([^.]+?\s+(?:…)[^.]+)'` (IGNORECASE): em-dash variant. -/
def posPat5 : Re :=
  .seq (.lit (cl "—")) (.seq reWsP (.grp 1 (.seq (.plusL isNonDot)
    (.seq reWsP (.seq posNounAlt (.plusG isNonDot))))))

/-- `self.POSITION_PATTERNS`, in order. -/
def POSITION_PATTERNS : List Re := [posPat1, posPat2, posPat3, posPat4, posPat5]

/-- The `position_keywords` fallback list of `extract_position`. -/
def position_keywords : List (List Char) :=
  [cl "председатель", cl "министр", cl "начальник", cl "директор",
   cl "руководитель", cl "заместитель", cl "советник", cl "помощник",
   cl "представитель", cl "посол", cl "судья", cl "прокурор"]

/-- `rf'([^.]*{keyword}[^.]*)'` (IGNORECASE). -/
def kwRe (keyword : List Char) : Re :=
  .grp 1 (.seq (.starG isNonDot) (.seq (.lit keyword) (.starG isNonDot)))

/-- Python `str.rstrip('.,;:')`. -/
def rstripPunct (s : List Char) : List Char :=
  (s.reverse.dropWhile (fun c => c == '.' || c == ',' || c == ';' || c == ':')).reverse

/-- The cleanup applied to a matched position phrase: `strip()`, collapse
inner whitespace, strip trailing punctuation. -/
def cleanPos (m : List Char) : List Char :=
  rstripPunct (collapseWs (stripWs m))

/-- The sentinel returned when no position is found. -/
def POSITION_SENTINEL : List Char := cl "Должность не указана"

/-- The first loop of `extract_position`: each pattern's first match,
cleaned; accepted when longer than 5 characters. -/
def positionLoop (t : List Char) : List Re → Option (List Char)
  | [] => none
  | p :: ps =>
    match reFirstGroup p t with
    | some m =>
      let position := cleanPos m
      if 5 < position.length then some position else positionLoop t ps
    | none => positionLoop t ps

/-- The keyword fallback loop of `extract_position`. -/
def keywordLoop (t : List Char) : List (List Char) → Option (List Char)
  | [] => none
  | k :: ks =>
    match reFirstGroup (kwRe k) t with
    | some m => some (stripWs m)
    | none => keywordLoop t ks

/-- `BeltaSpider.extract_position` (the `title` argument is accepted and
unused, as in the source). -/
def extract_position (full_text : List Char) (title : List Char) : List Char :=
  match positionLoop full_text POSITION_PATTERNS with
  | some position => position
  | none =>
    match keywordLoop full_text position_keywords with
    | some position => position
    | none => POSITION_SENTINEL

/-- C7's reading of the spec: the ordered candidates are each pattern's
first matched phrase, cleaned; the first whose length exceeds 5 wins, else
the first sentence fragment containing a title noun, else the sentinel. -/
def extract_position_specModel (full_text : List Char) : List Char :=
  match ((POSITION_PATTERNS.filterMap (fun p => reFirstGroup p full_text)).map
      cleanPos).find? (fun c => 5 < c.length) with
  | some c => c
  | none =>
    match (position_keywords.filterMap
        (fun k => reFirstGroup (kwRe k) full_text)).head? with
    | some m => stripWs m
    | none => POSITION_SENTINEL

/-! ## `parse_article` -/

/-- The item emitted by `parse_article`.  `publication_date` is the
`isoformat` field (kept as the datetime value; `isoformat` is injective);
a `datetime` is always truthy in Python, so the source's
`pub_date.isoformat() if pub_date else None` is `some`. -/
structure OutputRecord where
  title : List Char
  url : List Char
  snippet : List Char
  fio : Option (List Char)
  position : Option (List Char)
  publication_date : Option DateTime
  is_today : Bool
  relevant : Bool
  notification_header : Option (List Char)
  notification_text : Option (List Char)
  notification_source : Option (List Char)
  scraping_timestamp : DateTime
  raw_content : List Char
deriving DecidableEq, Repr

/-- `BeltaSpider.parse_article`, as a pure function of the request metadata
(`title`, `snippet`, `item_date`), the response (`url`, `r`), the process
clock `now` (used both for the date-extraction default and the scrape
timestamp) and the crawl-start reference day `today`.  The conditional
local `article_content` of the source (bound only when the title pass
fails, and tested with `'article_content' in locals()`) is the
`article_content?` option. -/
def parse_article (title snippet : List Char) (item_date : Option DateTime)
    (url : List Char) (r : ArticleResponse) (now today : DateTime) :
    OutputRecord :=
  let pub_date := extract_article_date r now
  let is_today := check_is_today pub_date today
  let title_relevant := is_presidential_appointment title
  let step :=
    if is_today && title_relevant then (true, (none : Option (List Char)))
    else
      let article_content := extract_article_content r
      (is_presidential_appointment article_content, some article_content)
  let relevant := step.1
  let article_content? := step.2
  let details :=
    if relevant then
      let full_text := title ++ ' ' :: snippet ++ ' ' ::
        (match article_content? with | some c => c | none => [])
      let fio := extract_fio full_text title
      let position := extract_position full_text title
      (some fio, some position, some (create_notification fio position url))
    else (none, none, (none : Option Notification))
  { title := title
    url := url
    snippet := snippet
    fio := details.1
    position := details.2.1
    publication_date := some pub_date
    is_today := is_today
    relevant := relevant
    notification_header := details.2.2.map (fun n => n.header)
    notification_text := details.2.2.map (fun n => n.text)
    notification_source := details.2.2.map (fun n => n.source)
    scraping_timestamp := now
    raw_content :=
      match article_content? with
      | some c => if c.isEmpty then [] else c.take 1000
      | none => [] }

/-! ## `parse_news_list` and the crawl -/

/-- Case-sensitive "is initial segment" (Python `str.startswith`). -/
def leadsCS : List Char → List Char → Bool
  | [], _ => true
  | _ :: _, [] => false
  | a :: as, b :: bs => a == b && leadsCS as bs

/-- Python `re.sub(r'&amp;', '&', s)` / `str.replace('&amp;', '&')`. -/
def replaceAmp : List Char → List Char
  | '&' :: 'a' :: 'm' :: 'p' :: ';' :: rest => '&' :: replaceAmp rest
  | c :: rest => c :: replaceAmp rest
  | [] => []

/-- `urljoin('https://belta.by', p)` for the shapes the code feeds it:
an absolute URL stays; a root-relative or bare path is resolved against
the site root. -/
def urljoinBelta (p : List Char) : List Char :=
  if leadsCS (cl "http") p then p
  else if leadsCS (cl "/") p then cl "https://belta.by" ++ p
  else cl "https://belta.by/" ++ p

/-- `BeltaSpider.clean_url` applied to a nonempty href (the source guards
the call with `if link:`). -/
def clean_url (url : List Char) : List Char :=
  let u := replaceAmp url
  if leadsCS (cl "//") u then cl "https:" ++ u
  else if leadsCS (cl "/") u then urljoinBelta u
  else if !(leadsCS (cl "http") u) then urljoinBelta u
  else u

/-- An article request queued by `parse_news_list` (URL plus the carried
`meta`). -/
structure ArticleRequest where
  url : List Char
  title : List Char
  snippet : List Char
  item_date : Option DateTime
deriving DecidableEq, Repr

/-- The per-item body of the `parse_news_list` loop after the
boundary check: title element and text, link, snippet, classifier gate;
`none` models each `continue` and the classifier rejection. -/
def itemRequest (item : ListingItem) : Option ArticleRequest :=
  if !item.has_title_span then none
  else
    let title :=
      match item.title_texts.head? with
      | some t => if t.isEmpty then stripWs (joinSpace item.title_texts) else t
      | none => stripWs (joinSpace item.title_texts)
    if title.isEmpty then none
    else
      match item.link with
      | none => none
      | some link =>
        if link.isEmpty then none
        else
          let article_url := clean_url link
          let snippet :=
            match item.snippet_texts with
            | some texts => stripWs (joinSpace texts)
            | none => []
          let full_text := lowerStr (title ++ ' ' :: snippet)
          if is_presidential_appointment full_text then
            some { url := article_url, title := title, snippet := snippet,
                   item_date := extract_item_date item }
          else none

/-- The boundary test of the loop head: item date known and strictly
before the reference day. -/
def boundaryHit (today : DateTime) (item : ListingItem) : Bool :=
  match extract_item_date item with
  | some d => dateLt d today
  | none => false

/-- The `for item in news_items` loop: emitted requests plus the
`found_previous_day` flag (the loop `break`s at the first boundary hit,
before processing that item). -/
def processItems (today : DateTime) : List ListingItem → List ArticleRequest × Bool
  | [] => ([], false)
  | item :: rest =>
    if boundaryHit today item then ([], true)
    else
      let pr := processItems today rest
      match itemRequest item with
      | some req => (req :: pr.1, pr.2)
      | none => pr

/-- One listing page as `parse_news_list` sees it: the `.lenta_item`
elements and the `onclick` attribute of each `div.load_more`. -/
structure ListingPage where
  items : List ListingItem
  load_more : List (Option (List Char))
deriving DecidableEq, Repr

/-- `re.search(r"get_page\('([^']+)'", onclick)`. -/
def getPageRe : Re :=
  .seq (.lit (cl "get_page('")) (.seq (.grp 1 (.plusG (fun c => !(c == '\x27'))))
    (.lit (cl "'")))

/-- The `load_more` scan: the first div whose `onclick` is nonempty,
contains `get_page(` and whose embedded path parses gives the next page
URL (entity-unescaped, resolved against the site root). -/
def nextPageUrl : List (Option (List Char)) → Option (List Char)
  | [] => none
  | none :: rest => nextPageUrl rest
  | some onclick :: rest =>
    if onclick.isEmpty then nextPageUrl rest
    else if strContains onclick (cl "get_page(") then
      match reFirstGroup getPageRe onclick with
      | some path => some (urljoinBelta (replaceAmp path))
      | none => nextPageUrl rest
    else nextPageUrl rest

/-- The result of one `parse_news_list` call: the article requests it
yields and the next-page request (if any). -/
structure PageResult where
  requests : List ArticleRequest
  next_url : Option (List Char)
deriving DecidableEq, Repr

/-- `BeltaSpider.parse_news_list` for one response, given the crawl-start
reference day `today` and the `continue_loading` meta flag. -/
def parse_news_list (today : DateTime) (continue_loading : Bool)
    (page : ListingPage) : PageResult :=
  let pr := processItems today page.items
  { requests := pr.1
    next_url :=
      if continue_loading && !pr.2 then nextPageUrl page.load_more else none }

/-- The crawl over the chain of listing pages the site would serve to
successive next-page requests: page `n+1` is fetched only when page `n`'s
parse issued a next-page request (each request carries
`continue_loading = True`, as `start_requests` and the pagination code
do). -/
def crawl (today : DateTime) : List ListingPage → List ArticleRequest
  | [] => []
  | page :: rest =>
    let res := parse_news_list today true page
    res.requests ++
      (match res.next_url with
       | some _ => crawl today rest
       | none => [])

/-! ## Spec-side reading of the article-date strategy chain (claim C5) -/

/-- First defined value of an ordered candidate list. -/
def firstSome : List (Option DateTime) → Option DateTime
  | [] => none
  | some d :: _ => some d
  | none :: rest => firstSome rest

/-- One fallback-selector date strategy: the selector's text (when present
and nonempty) through `parse_date_string`. -/
def dateCandidate (o : Option (List Char)) : Option DateTime :=
  match o with
  | some t => if t.isEmpty then none else parse_date_string (stripWs t)
  | none => none

/-- C5's reading of the spec: the ordered date strategies of an article
page — the primary long-form element, then each fallback selector in fixed
order — each producing an optional date. -/
def article_date_candidates (r : ArticleResponse) : List (Option DateTime) :=
  primaryDateCandidate r :: r.date_fallbacks.map dateCandidate

/-! ## Concrete inputs used by witnesses -/

/-- A dateless listing item whose title passes the classifier. -/
def witnessItem : ListingItem :=
  { has_new_date := false, day_text := none, month_year_text := none,
    has_title_span := true,
    title_texts := [cl "Президент назначил нового министра"],
    link := some (cl "/x"), snippet_texts := none }

/-- A one-item listing page with no continue affordance. -/
def witnessPage : ListingPage :=
  { items := [witnessItem], load_more := [] }

/-- The article request the crawl issues for `witnessPage`. -/
def witnessRequest : ArticleRequest :=
  { url := cl "https://belta.by/x",
    title := cl "Президент назначил нового министра",
    snippet := [], item_date := none }

end Belta

namespace Belta

/-! # Theorems -/

/-- Claim C4: `is_presidential_appointment(text)` is true iff the lowercased
text contains at least one fixed category keyword and at least one fixed
appointment keyword as substrings; a text containing «указ» but no
appointment keyword yields `false`, and a text containing both «указ» and
«назначение» yields `true`. -/
theorem C4_classifier_two_keyword_sets :
    (∀ text : List Char,
      is_presidential_appointment text = true ↔
        ((∃ k ∈ RELEVANT_CATEGORIES, strContains (lowerStr text) k = true) ∧
         (∃ k ∈ APPOINTMENT_PATTERNS, strContains (lowerStr text) k = true))) ∧
    is_presidential_appointment (cl "Указ президента подписан") = false ∧
    is_presidential_appointment (cl "Указ президента: новое назначение") = true := by
  refine ⟨fun text => ?_, by decide, by decide⟩
  simp [is_presidential_appointment, List.any_eq_true]

/-- Claim C1: the emitted relevance flag equals (publication date on the
reference day AND `classify(title)`) OR `classify(extracted body)`; and the
body text is extracted (and enters the record's raw-content audit field)
exactly when the title pass failed — when the title pass succeeds the body
pass is skipped, and with a publication date on another day a relevant
title alone does not decide, the body pass still being evaluated. -/
theorem C1_two_pass_relevance :
    ∀ (title snippet : List Char) (item_date : Option DateTime)
      (url : List Char) (r : ArticleResponse) (now today : DateTime),
      ((parse_article title snippet item_date url r now today).relevant =
        ((check_is_today (extract_article_date r now) today &&
            is_presidential_appointment title) ||
          is_presidential_appointment (extract_article_content r))) ∧
      ((parse_article title snippet item_date url r now today).raw_content =
        if check_is_today (extract_article_date r now) today &&
            is_presidential_appointment title then []
        else if (extract_article_content r).isEmpty then []
        else (extract_article_content r).take 1000) := by
  intro title snippet item_date url r now today
  by_cases h : (check_is_today (extract_article_date r now) today &&
      is_presidential_appointment title) = true
  · constructor <;> simp [parse_article, h]
  · rw [Bool.not_eq_true] at h
    constructor <;> simp [parse_article, h]

/-- Claim C8: in every emitted record the notification fields (and the name
and position fields) are populated exactly when `relevant` is true; when it
is, the header is the fixed constant and the source is the article URL —
`create_notification` being the pure function building that triple. -/
theorem C8_notification_fields :
    ∀ (title snippet : List Char) (item_date : Option DateTime)
      (url : List Char) (r : ArticleResponse) (now today : DateTime),
      ((parse_article title snippet item_date url r now today).notification_header =
        if (parse_article title snippet item_date url r now today).relevant then
          some NOTIFICATION_HEADER else none) ∧
      ((parse_article title snippet item_date url r now today).notification_source =
        if (parse_article title snippet item_date url r now today).relevant then
          some url else none) ∧
      ((parse_article title snippet item_date url r now today).notification_text.isSome =
        (parse_article title snippet item_date url r now today).relevant) ∧
      ((parse_article title snippet item_date url r now today).fio.isSome =
        (parse_article title snippet item_date url r now today).relevant) ∧
      ((parse_article title snippet item_date url r now today).position.isSome =
        (parse_article title snippet item_date url r now today).relevant) ∧
      (∀ fio position u, create_notification fio position u =
        { header := NOTIFICATION_HEADER,
          text := cl "Опубликовано новое кадровое решение: " ++ fio ++
            cl ", назначен(а) на должность " ++ position ++
            cl ". Необходимо подготовить поздравление.",
          source := u }) := by
  intro title snippet item_date url r now today
  by_cases h : (check_is_today (extract_article_date r now) today &&
      is_presidential_appointment title) = true
  · refine ⟨?_, ?_, ?_, ?_, ?_, fun f p u => rfl⟩ <;>
      simp [parse_article, h, create_notification]
  · rw [Bool.not_eq_true] at h
    by_cases h2 : is_presidential_appointment (extract_article_content r) = true
    · refine ⟨?_, ?_, ?_, ?_, ?_, fun f p u => rfl⟩ <;>
        simp [parse_article, h, h2, create_notification]
    · rw [Bool.not_eq_true] at h2
      refine ⟨?_, ?_, ?_, ?_, ?_, fun f p u => rfl⟩ <;>
        simp [parse_article, h, h2, create_notification]

/-- Claim C9 as stated is false: when the title pass short-circuits, the
body is never extracted and `raw_content` is `""` even though the page's
extractable body text is nonempty.  Concretely: a relevant title, a
`date_full` of the reference day and a nonempty `articleBody`. -/
theorem C9_counterexample :
    ¬ ((parse_article (cl "Президент назначил министра") (cl "")
          none (cl "https://belta.by/x")
          { article_body_texts := some [cl "Новость дня"],
            content_fallbacks := [], all_p_texts := [],
            date_full_text := some (cl "08 января 2026, 19:51"),
            date_fallbacks := [] }
          ⟨2026, 1, 8, 12, 0, 0⟩ ⟨2026, 1, 8, 0, 0, 0⟩).raw_content =
        (extract_article_content
          { article_body_texts := some [cl "Новость дня"],
            content_fallbacks := [], all_p_texts := [],
            date_full_text := some (cl "08 января 2026, 19:51"),
            date_fallbacks := [] }).take 1000) := by
  decide

/-- Claim C9, amended to what the code does: the raw-content audit field of
an emitted record equals the first 1000 characters of the extracted body
text whenever the title pass failed (so the body was extracted), and is
empty when the title pass short-circuited (the body never being
extracted). -/
theorem C9_raw_content_amended :
    ∀ (title snippet : List Char) (item_date : Option DateTime)
      (url : List Char) (r : ArticleResponse) (now today : DateTime),
      (parse_article title snippet item_date url r now today).raw_content =
        if check_is_today (extract_article_date r now) today &&
            is_presidential_appointment title then []
        else (extract_article_content r).take 1000 := by
  intro title snippet item_date url r now today
  by_cases h : (check_is_today (extract_article_date r now) today &&
      is_presidential_appointment title) = true
  · simp [parse_article, h]
  · rw [Bool.not_eq_true] at h
    by_cases he : (extract_article_content r).isEmpty = true
    · rw [List.isEmpty_iff] at he
      simp [parse_article, h, he]
    · rw [Bool.not_eq_true] at he
      simp [parse_article, h, he]

/-- The fallback-selector loop is the first success of the per-selector
candidates. -/
theorem dateFallbackLoop_eq_firstSome (l : List (Option (List Char))) :
    dateFallbackLoop l = firstSome (l.map dateCandidate) := by
  induction l with
  | nil => rfl
  | cons o rest ih =>
    cases o with
    | none => exact ih
    | some t =>
      cases t with
      | nil => exact ih
      | cons c t' =>
        show (match parse_date_string (stripWs (c :: t')) with
          | some d => some d
          | none => dateFallbackLoop rest) =
          firstSome (parse_date_string (stripWs (c :: t')) :: rest.map dateCandidate)
        cases hp : parse_date_string (stripWs (c :: t')) with
        | none => exact ih
        | some d => rfl

/-- Claim C5: the article date extractor walks the fixed strategy chain —
the primary long-form element, then each fallback selector in order — and
takes the first success, defaulting to the current processing instant when
every strategy fails; consequently the `publication_date` field of every
emitted record is non-null. -/
theorem C5_article_date_never_absent :
    (∀ (r : ArticleResponse) (now : DateTime),
      extract_article_date r now = (firstSome (article_date_candidates r)).getD now) ∧
    (∀ (title snippet : List Char) (item_date : Option DateTime)
      (url : List Char) (r : ArticleResponse) (now today : DateTime),
      (parse_article title snippet item_date url r now today).publication_date ≠
        none) := by
  constructor
  · intro r now
    unfold extract_article_date article_date_candidates
    cases hp : primaryDateCandidate r with
    | some d => rfl
    | none =>
      show (match dateFallbackLoop r.date_fallbacks with
        | some d => d
        | none => now) =
        (firstSome (none :: r.date_fallbacks.map dateCandidate)).getD now
      rw [show firstSome (none :: r.date_fallbacks.map dateCandidate) =
        firstSome (r.date_fallbacks.map dateCandidate) from rfl]
      rw [← dateFallbackLoop_eq_firstSome]
      cases hfb : dateFallbackLoop r.date_fallbacks with
      | none => rfl
      | some d => rfl
  · intro title snippet item_date url r now today
    by_cases h : (check_is_today (extract_article_date r now) today &&
        is_presidential_appointment title) = true
    · simp [parse_article, h]
    · rw [Bool.not_eq_true] at h
      simp [parse_article, h]

/-- The item loop emits exactly the qualifying items of the prefix before
the first boundary hit, and its flag records whether any item hit the
boundary. -/
theorem processItems_characterization (today : DateTime) (items : List ListingItem) :
    processItems today items =
      ((items.takeWhile (fun it => !boundaryHit today it)).filterMap itemRequest,
       items.any (boundaryHit today)) := by
  induction items with
  | nil => rfl
  | cons item rest ih =>
    by_cases h : boundaryHit today item = true
    · simp [processItems, h, List.takeWhile_cons, List.any_cons]
    · rw [Bool.not_eq_true] at h
      cases hreq : itemRequest item with
      | none =>
        simp [processItems, h, hreq, List.takeWhile_cons, List.filterMap_cons,
          List.any_cons, ih]
      | some req =>
        simp [processItems, h, hreq, List.takeWhile_cons, List.filterMap_cons,
          List.any_cons, ih]

/-- Claim C3: a known item date earlier than the fixed reference day is a
one-way stop.  Per page: the emitted article requests come only from the
prefix of items before the first boundary hit (the later items are never
classified or requested), and the next-page request is issued only when no
item of the page hit the boundary (and the continue affordance exists).
Whole-crawl: the crawl of a page chain never touches the pages after a
page containing a boundary hit. -/
theorem C3_boundary_stop_is_sticky :
    ∀ (today : DateTime) (continue_loading : Bool) (page : ListingPage),
      ((parse_news_list today continue_loading page).requests =
        (page.items.takeWhile (fun it => !boundaryHit today it)).filterMap
          itemRequest) ∧
      ((parse_news_list today continue_loading page).next_url =
        if continue_loading && !(page.items.any (boundaryHit today)) then
          nextPageUrl page.load_more
        else none) ∧
      (∀ rest : List ListingPage,
        crawl today (page :: rest) =
          (page.items.takeWhile (fun it => !boundaryHit today it)).filterMap
            itemRequest ++
          (if page.items.any (boundaryHit today) then []
           else match nextPageUrl page.load_more with
             | some _ => crawl today rest
             | none => [])) := by
  intro today continue_loading page
  refine ⟨?_, ?_, ?_⟩
  · simp [parse_news_list, processItems_characterization]
  · simp [parse_news_list, processItems_characterization]
  · intro rest
    by_cases h : page.items.any (boundaryHit today) = true
    · simp [crawl, parse_news_list, processItems_characterization, h]
    · rw [Bool.not_eq_true] at h
      cases hn : nextPageUrl page.load_more with
      | none => simp [crawl, parse_news_list, processItems_characterization, h, hn]
      | some u => simp [crawl, parse_news_list, processItems_characterization, h, hn]

/-- The pattern loop of `extract_position` picks the first cleaned
per-pattern candidate longer than 5 characters. -/
theorem positionLoop_eq_find (t : List Char) (ps : List Re) :
    positionLoop t ps =
      ((ps.filterMap (fun p => reFirstGroup p t)).map cleanPos).find?
        (fun c => 5 < c.length) := by
  induction ps with
  | nil => rfl
  | cons p ps ih =>
    show (match reFirstGroup p t with
      | some m =>
        let position := cleanPos m
        if 5 < position.length then some position else positionLoop t ps
      | none => positionLoop t ps) = _
    cases hm : reFirstGroup p t with
    | none => simpa [List.filterMap_cons, hm] using ih
    | some m =>
      simp only [List.filterMap_cons, hm, List.map_cons]
      by_cases hl : 5 < (cleanPos m).length
      · rw [List.find?_cons_of_pos _ (by simpa using hl)]
        simp [hl]
      · rw [List.find?_cons_of_neg _ (by simpa using hl)]
        rw [if_neg hl]
        exact ih

/-- The keyword fallback loop of `extract_position` picks the first
keyword whose sentence pattern matches at all. -/
theorem keywordLoop_eq_head (t : List Char) (ks : List (List Char)) :
    keywordLoop t ks =
      ((ks.filterMap (fun k => reFirstGroup (kwRe k) t)).head?).map stripWs := by
  induction ks with
  | nil => rfl
  | cons k ks ih =>
    show (match reFirstGroup (kwRe k) t with
      | some m => some (stripWs m)
      | none => keywordLoop t ks) = _
    cases hm : reFirstGroup (kwRe k) t with
    | none => simpa [List.filterMap_cons, hm] using ih
    | some m => simp [List.filterMap_cons, hm]

/-- Claim C7: `extract_position` returns the first per-pattern matched
phrase whose cleaned form (whitespace collapsed, trailing punctuation
stripped) exceeds 5 characters, else falls back to the first sentence
fragment containing a title-noun keyword, else the sentinel «Должность не
указана». -/
theorem C7_position_fallback_chain :
    ∀ (full_text title : List Char),
      extract_position full_text title = extract_position_specModel full_text := by
  intro full_text title
  unfold extract_position extract_position_specModel
  rw [positionLoop_eq_find, keywordLoop_eq_head]
  cases ((POSITION_PATTERNS.filterMap (fun p => reFirstGroup p full_text)).map
      cleanPos).find? (fun c => 5 < c.length) with
  | some c => rfl
  | none =>
    cases (position_keywords.filterMap
        (fun k => reFirstGroup (kwRe k) full_text)).head? with
    | some m => rfl
    | none => rfl

/-- A queued article request passed the listing-time classifier gate on
the lowercased title-plus-snippet it carries. -/
theorem itemRequest_classified (item : ListingItem) (req : ArticleRequest)
    (h : itemRequest item = some req) :
    is_presidential_appointment (lowerStr (req.title ++ ' ' :: req.snippet)) = true := by
  unfold itemRequest at h
  repeat' split at h
  all_goals try simp_all
  all_goals first
    | (obtain ⟨-, hcls, heq⟩ := h; subst heq; simpa using hcls)
    | (obtain ⟨hcls, heq⟩ := h; subst heq; simpa using hcls)

/-- Every request the crawl issues came from `itemRequest` on some listing
item. -/
theorem crawl_request_source (today : DateTime) (pages : List ListingPage)
    (req : ArticleRequest) (h : req ∈ crawl today pages) :
    ∃ item, itemRequest item = some req := by
  induction pages with
  | nil => exact absurd h (by simp [crawl])
  | cons p ps ih =>
    simp only [crawl] at h
    rcases List.mem_append.mp h with h1 | h1
    · simp only [parse_news_list] at h1
      rw [show (processItems today p.items) =
          ((p.items.takeWhile (fun it => !boundaryHit today it)).filterMap
            itemRequest, p.items.any (boundaryHit today)) from
          processItems_characterization today p.items] at h1
      obtain ⟨item, -, hi⟩ := List.mem_filterMap.mp h1
      exact ⟨item, hi⟩
    · cases hnu : (parse_news_list today true p).next_url with
      | some u => simp only [hnu] at h1; exact ih h1
      | none => simp only [hnu] at h1; exact absurd h1 (by simp)

/-- Claim C10 (implicit invariant): an article page is requested only for
listing items whose lowercased title-plus-snippet already passes the
two-keyword classifier at listing time, so every emitted record's
title-plus-snippet passes it as well, independently of the pipeline inside
`parse_article`. -/
theorem C10_requests_already_classified :
    ∀ (today : DateTime) (pages : List ListingPage) (req : ArticleRequest),
      req ∈ crawl today pages →
      (is_presidential_appointment (lowerStr (req.title ++ ' ' :: req.snippet)) = true ∧
       ∀ (r : ArticleResponse) (now today' : DateTime),
         is_presidential_appointment
           (lowerStr
             ((parse_article req.title req.snippet req.item_date req.url r now
                today').title ++ ' ' ::
              (parse_article req.title req.snippet req.item_date req.url r now
                today').snippet)) = true) := by
  intro today pages req h
  obtain ⟨item, hi⟩ := crawl_request_source today pages req h
  have hcls := itemRequest_classified item req hi
  exact ⟨hcls, fun r now today' => hcls⟩

/-- A concrete crawl for claim C10: one listing page with one dateless
qualifying item produces exactly one request, and that request (and the
record built from it) passes the classifier. -/
theorem C10_witness :
    witnessRequest ∈ crawl ⟨2026, 1, 9, 0, 0, 0⟩ [witnessPage] ∧
    is_presidential_appointment
      (lowerStr (witnessRequest.title ++ ' ' :: witnessRequest.snippet)) = true := by
  have hmem : witnessRequest ∈ crawl ⟨2026, 1, 9, 0, 0, 0⟩ [witnessPage] := by
    decide
  exact ⟨hmem, (C10_requests_already_classified _ _ _ hmem).1⟩

/-- `[а-яё]` characters are not whitespace. -/
theorem lowerCyr_not_ws (c : Char) (h : isLowerCyr c = true) : isWsCh c = false := by
  simp only [isLowerCyr, Bool.or_eq_true, Bool.and_eq_true, decide_eq_true_eq,
    beq_iff_eq] at h
  simp only [isWsCh, Bool.or_eq_false_iff, beq_eq_false_iff_ne, ne_eq]
  omega

/-- `[А-ЯЁ]` characters are not whitespace. -/
theorem upperCyr_not_ws (c : Char) (h : isUpperCyr c = true) : isWsCh c = false := by
  simp only [isUpperCyr, Bool.or_eq_true, Bool.and_eq_true, decide_eq_true_eq,
    beq_iff_eq] at h
  simp only [isWsCh, Bool.or_eq_false_iff, beq_eq_false_iff_ne, ne_eq]
  omega

/-- `takeLowers` splits its input and keeps only `[а-яё]` characters. -/
theorem takeLowers_split (s : List Char) :
    s = (takeLowers s).1 ++ (takeLowers s).2 ∧
    ∀ c ∈ (takeLowers s).1, isLowerCyr c = true := by
  induction s with
  | nil => exact ⟨rfl, by simp [takeLowers]⟩
  | cons c t ih =>
    by_cases h : isLowerCyr c = true
    · refine ⟨?_, ?_⟩
      · simpa [takeLowers, h] using ih.1
      · intro d hd
        simp only [takeLowers, h, if_true] at hd
        rcases List.mem_cons.mp hd with rfl | hd
        · exact h
        · exact ih.2 d hd
    · rw [Bool.not_eq_true] at h
      exact ⟨by simp [takeLowers, h], by simp [takeLowers, h]⟩

/-- `takeSpacesF` splits its input and keeps only whitespace. -/
theorem takeSpacesF_split (s : List Char) :
    s = (takeSpacesF s).1 ++ (takeSpacesF s).2 ∧
    ∀ c ∈ (takeSpacesF s).1, isWsCh c = true := by
  induction s with
  | nil => exact ⟨rfl, by simp [takeSpacesF]⟩
  | cons c t ih =>
    by_cases h : isWsCh c = true
    · refine ⟨?_, ?_⟩
      · simpa [takeSpacesF, h] using ih.1
      · intro d hd
        simp only [takeSpacesF, h, if_true] at hd
        rcases List.mem_cons.mp hd with rfl | hd
        · exact h
        · exact ih.2 d hd
    · rw [Bool.not_eq_true] at h
      exact ⟨by simp [takeSpacesF, h], by simp [takeSpacesF, h]⟩

/-- A successful `matchWord` yields a nonempty non-whitespace word and
splits the input. -/
theorem matchWord_shape (s w r : List Char) (h : matchWord s = some (w, r)) :
    NonWsWord w ∧ s = w ++ r := by
  cases s with
  | nil => exact absurd h (by simp [matchWord])
  | cons c t =>
    by_cases hu : isUpperCyr c = true
    · by_cases he : (takeLowers t).1.isEmpty = true
      · exact absurd h (by simp [matchWord, hu, he])
      · have hw : w = c :: (takeLowers t).1 ∧ r = (takeLowers t).2 := by
          rw [Bool.not_eq_true] at he
          simpa [matchWord, hu, he] using h.symm
        obtain ⟨hw1, hr⟩ := hw
        subst hw1; subst hr
        refine ⟨⟨by simp, ?_⟩, by simpa using congrArg (c :: ·) (takeLowers_split t).1⟩
        intro d hd
        rcases List.mem_cons.mp hd with rfl | hd
        · exact upperCyr_not_ws d hu
        · exact lowerCyr_not_ws d ((takeLowers_split t).2 d hd)
    · rw [Bool.not_eq_true] at hu
      exact absurd h (by simp [matchWord, hu])

/-- A successful `matchExt` yields a whitespace run followed by a word and
splits the input. -/
theorem matchExt_shape (s e r : List Char) (h : matchExt s = some (e, r)) :
    (∃ sp w, e = sp ++ w ∧ WsRun sp ∧ NonWsWord w) ∧ s = e ++ r := by
  unfold matchExt at h
  by_cases hsp : (takeSpacesF s).1.isEmpty = true
  · exact absurd h (by simp [hsp])
  · rw [Bool.not_eq_true] at hsp
    cases hw : matchWord (takeSpacesF s).2 with
    | none => exact absurd h (by simp [hsp, hw])
    | some pr =>
      obtain ⟨w, r2⟩ := pr
      have hew : e = (takeSpacesF s).1 ++ w ∧ r = r2 := by
        simpa [hsp, hw] using h.symm
      obtain ⟨he, hr⟩ := hew
      subst he; subst hr
      obtain ⟨hword, hsplit⟩ := matchWord_shape _ _ _ hw
      refine ⟨⟨(takeSpacesF s).1, w, rfl, ⟨?_, (takeSpacesF_split s).2⟩, hword⟩, ?_⟩
      · intro hnil
        rw [hnil] at hsp
        simp at hsp
      · calc s = (takeSpacesF s).1 ++ (takeSpacesF s).2 := (takeSpacesF_split s).1
          _ = (takeSpacesF s).1 ++ (w ++ r) := by rw [hsplit]
          _ = (takeSpacesF s).1 ++ w ++ r := by rw [List.append_assoc]

/-- Every `matchFio` match has the two-or-three-word shape, splits the
input, and is nonempty. -/
theorem matchFio_shape (s m rest : List Char) (h : matchFio s = some (m, rest)) :
    FioShape m ∧ s = m ++ rest ∧ m ≠ [] := by
  unfold matchFio at h
  cases hw1 : matchWord s with
  | none => simp only [hw1] at h; exact absurd h (by simp)
  | some pr1 =>
    obtain ⟨w1, r1⟩ := pr1
    simp only [hw1] at h
    obtain ⟨hword1, hsplit1⟩ := matchWord_shape _ _ _ hw1
    cases he2 : matchExt r1 with
    | none => simp only [he2] at h; exact absurd h (by simp)
    | some pr2 =>
      obtain ⟨e2, r2⟩ := pr2
      simp only [he2] at h
      obtain ⟨⟨sp2, w2, hesp, hws2, hword2⟩, hsplit2⟩ := matchExt_shape _ _ _ he2
      cases he3 : matchExt r2 with
      | none =>
        simp only [he3] at h
        injection h with h1
        injection h1 with hm1 hm2
        subst hm1; subst hm2
        refine ⟨⟨w1, sp2, w2, [], ?_, hword1, hws2, hword2, Or.inl rfl⟩, ?_, ?_⟩
        · rw [hesp]; simp [List.append_assoc]
        · rw [hsplit1, hsplit2, List.append_assoc]
        · simp [hword1.1]
      | some pr3 =>
        obtain ⟨e3, r3⟩ := pr3
        simp only [he3] at h
        obtain ⟨⟨sp3, w3, hesp3, hws3, hword3⟩, hsplit3⟩ := matchExt_shape _ _ _ he3
        injection h with h1
        injection h1 with hm1 hm2
        subst hm1; subst hm2
        refine ⟨⟨w1, sp2, w2, e3, ?_, hword1, hws2, hword2,
          Or.inr ⟨sp3, w3, hesp3, hws3, hword3⟩⟩, ?_, ?_⟩
        · rw [hesp]; simp [List.append_assoc]
        · rw [hsplit1, hsplit2, hsplit3]; simp [List.append_assoc]
        · simp [hword1.1]

/-- Every candidate listed by the FIO scan has the match shape. -/
theorem fioFindAllAux_shape :
    ∀ (fuel : Nat) (s m : List Char), m ∈ fioFindAllAux fuel s → FioShape m := by
  intro fuel
  induction fuel with
  | zero => intro s m hm; exact absurd hm (by simp [fioFindAllAux])
  | succ fuel ih =>
    intro s m hm
    cases s with
    | nil => exact absurd hm (by simp [fioFindAllAux])
    | cons c t =>
      rw [fioFindAllAux] at hm
      cases hf : matchFio (c :: t) with
      | none =>
        rw [hf] at hm
        exact ih t m hm
      | some pr =>
        obtain ⟨m0, rest⟩ := pr
        rw [hf] at hm
        rcases List.mem_cons.mp hm with rfl | hm
        · exact (matchFio_shape _ _ _ hf).1
        · exact ih rest m hm

/-- Pushing a non-whitespace word into the split accumulator. -/
theorem splitWs_go_word (w : List Char) (hw : ∀ c ∈ w, isWsCh c = false) :
    ∀ (cur t : List Char), splitWs.go cur (w ++ t) = splitWs.go (w.reverse ++ cur) t := by
  induction w with
  | nil => intro cur t; simp
  | cons c w' ih =>
    intro cur t
    have hc : isWsCh c = false := hw c (by simp)
    have hw' : ∀ d ∈ w', isWsCh d = false := fun d hd => hw d (by simp [hd])
    show splitWs.go cur (c :: (w' ++ t)) = _
    rw [splitWs.go, hc]
    simp only [Bool.false_eq_true, if_false]
    rw [ih hw' (c :: cur) t]
    congr 1
    simp

/-- Leading whitespace is dropped by the splitter. -/
theorem splitWs_go_ws (sp : List Char) (hsp : ∀ c ∈ sp, isWsCh c = true) :
    ∀ t : List Char, splitWs.go [] (sp ++ t) = splitWs.go [] t := by
  induction sp with
  | nil => intro t; rfl
  | cons c sp' ih =>
    intro t
    have hc : isWsCh c = true := hsp c (by simp)
    have hsp' : ∀ d ∈ sp', isWsCh d = true := fun d hd => hsp d (by simp [hd])
    show splitWs.go [] (c :: (sp' ++ t)) = _
    rw [splitWs.go, hc]
    simp only [if_true, List.isEmpty_nil]
    exact ih hsp' t

/-- `isEmpty` is false on a nonempty list. -/
theorem isEmpty_false_of_ne_nil {α : Type} (l : List α) (h : l ≠ []) :
    l.isEmpty = false := by
  cases l with
  | nil => exact absurd rfl h
  | cons a t => rfl

/-- A word followed by a separator contributes exactly one piece. -/
theorem splitWs_go_word_sep (w sp rest : List Char)
    (hw : NonWsWord w) (hsp : WsRun sp) :
    splitWs.go [] (w ++ (sp ++ rest)) = w :: splitWs.go [] rest := by
  rw [splitWs_go_word w hw.2 [] (sp ++ rest)]
  obtain ⟨c, sp', rfl⟩ := List.exists_cons_of_ne_nil hsp.1
  have hc : isWsCh c = true := hsp.2 c (by simp)
  have hsp' : ∀ d ∈ sp', isWsCh d = true := fun d hd => hsp.2 d (by simp [hd])
  show splitWs.go (w.reverse ++ []) (c :: (sp' ++ rest)) = _
  rw [splitWs.go, hc]
  simp only [if_true]
  have hne : (w.reverse ++ []).isEmpty = false :=
    isEmpty_false_of_ne_nil _ (by simp [hw.1])
  rw [hne]
  simp only [Bool.false_eq_true, if_false]
  rw [splitWs_go_ws sp' hsp' rest]
  congr 1
  simp

/-- A trailing word contributes exactly one piece. -/
theorem splitWs_go_word_only (w : List Char) (hw : NonWsWord w) :
    splitWs.go [] w = [w] := by
  have := splitWs_go_word w hw.2 [] []
  rw [List.append_nil] at this
  rw [this]
  show splitWs.go (w.reverse ++ []) [] = [w]
  rw [splitWs.go]
  rw [isEmpty_false_of_ne_nil _ (by simp [hw.1] :
    (w.reverse ++ []) ≠ [])]
  simp

/-- An FIO match splits into its two or three words. -/
theorem fioShape_splitWs_length (m : List Char) (h : FioShape m) :
    (splitWs m).length = 2 ∨ (splitWs m).length = 3 := by
  obtain ⟨w1, sp2, w2, t, rfl, hw1, hsp2, hw2, ht⟩ := h
  rcases ht with rfl | ⟨sp3, w3, rfl, hsp3, hw3⟩
  · left
    show (splitWs.go [] (w1 ++ sp2 ++ w2 ++ [])).length = 2
    rw [List.append_nil, List.append_assoc,
      splitWs_go_word_sep w1 sp2 w2 hw1 hsp2,
      splitWs_go_word_only w2 hw2]
    rfl
  · right
    show (splitWs.go [] (w1 ++ sp2 ++ w2 ++ (sp3 ++ w3))).length = 3
    rw [List.append_assoc w1 sp2 w2, List.append_assoc,
      show sp2 ++ w2 ++ (sp3 ++ w3) = sp2 ++ (w2 ++ (sp3 ++ w3)) from
        List.append_assoc sp2 w2 (sp3 ++ w3),
      splitWs_go_word_sep w1 sp2 (w2 ++ (sp3 ++ w3)) hw1 hsp2,
      splitWs_go_word_sep w2 sp3 w3 hw2 hsp3,
      splitWs_go_word_only w3 hw3]
    rfl

/-- `strip()` is the identity on a string with non-whitespace first and
last characters. -/
theorem stripWs_id_of_ends (m : List Char)
    (hhead : ∃ c rest, m = c :: rest ∧ isWsCh c = false)
    (htail : ∃ pre wl, m = pre ++ wl ∧ wl ≠ [] ∧ ∀ c ∈ wl, isWsCh c = false) :
    stripWs m = m := by
  obtain ⟨c, rest, rfl, hc⟩ := hhead
  unfold stripWs
  rw [List.dropWhile_cons, hc]
  simp only [Bool.false_eq_true, if_false]
  obtain ⟨pre, wl, hm, hwl, hnws⟩ := htail
  obtain ⟨d, ds, hds⟩ := List.exists_cons_of_ne_nil (by
    simpa using List.reverse_eq_nil_iff.not.mpr hwl :
      wl.reverse ≠ [])
  have hd : isWsCh d = false := by
    have : d ∈ wl.reverse := by rw [hds]; simp
    exact hnws d (List.mem_reverse.mp this)
  have hrev : (c :: rest).reverse = d :: (ds ++ pre.reverse) := by
    rw [hm, List.reverse_append, hds]
    simp
  rw [hrev, List.dropWhile_cons, hd]
  simp only [Bool.false_eq_true, if_false]
  rw [← hrev, List.reverse_reverse]

/-- `strip()` is the identity on every FIO match. -/
theorem fioShape_stripWs (m : List Char) (h : FioShape m) : stripWs m = m := by
  obtain ⟨w1, sp2, w2, t, hm, hw1, hsp2, hw2, ht⟩ := h
  apply stripWs_id_of_ends
  · obtain ⟨c, w1', rfl⟩ := List.exists_cons_of_ne_nil hw1.1
    exact ⟨c, w1' ++ sp2 ++ w2 ++ t, by rw [hm]; simp [List.append_assoc],
      hw1.2 c (by simp)⟩
  · rcases ht with rfl | ⟨sp3, w3, rfl, hsp3, hw3⟩
    · exact ⟨w1 ++ sp2, w2, by rw [hm, List.append_nil, List.append_assoc], hw2.1, hw2.2⟩
    · exact ⟨w1 ++ sp2 ++ w2 ++ sp3, w3, by rw [hm]; simp [List.append_assoc],
        hw3.1, hw3.2⟩

/-- `find?` only inspects members, so pointwise-equal predicates agree. -/
theorem find?_congr_mem {α : Type} (l : List α) (p q : α → Bool)
    (h : ∀ x ∈ l, p x = q x) : l.find? p = l.find? q := by
  induction l with
  | nil => rfl
  | cons a l ih =>
    have ha := h a (by simp)
    cases hq : q a with
    | true =>
      rw [List.find?_cons_of_pos _ (ha.trans hq), List.find?_cons_of_pos _ hq]
    | false =>
      rw [List.find?_cons_of_neg _ (by simp [ha, hq]),
        List.find?_cons_of_neg _ (by simp [hq])]
      exact ih (fun x hx => h x (by simp [hx]))

/-- The FIO scan's fuel bound never truncates: any fuel at least the input
length gives the same candidate list (each step consumes at least one
character), so `fioFindAll`'s choice of `s.length` is exact. -/
theorem fioFindAllAux_fuel_irrelevant :
    ∀ (f1 f2 : Nat) (s : List Char), s.length ≤ f1 → s.length ≤ f2 →
      fioFindAllAux f1 s = fioFindAllAux f2 s := by
  intro f1
  induction f1 with
  | zero =>
    intro f2 s h1 h2
    have hs : s = [] := List.eq_nil_of_length_eq_zero (Nat.le_zero.mp h1)
    subst hs
    cases f2 <;> rfl
  | succ f1 ih =>
    intro f2 s h1 h2
    cases s with
    | nil => cases f2 <;> rfl
    | cons c t =>
      cases f2 with
      | zero => simp at h2
      | succ g =>
        simp only [fioFindAllAux]
        cases hf : matchFio (c :: t) with
        | none =>
          have ht : t.length ≤ f1 := by simp at h1; omega
          have ht2 : t.length ≤ g := by simp at h2; omega
          exact ih g t ht ht2
        | some pr =>
          obtain ⟨m, rest⟩ := pr
          obtain ⟨-, hsplit, hne⟩ := matchFio_shape _ _ _ hf
          have hm1 : 1 ≤ m.length := by
            cases m with
            | nil => exact absurd rfl hne
            | cons a as => simp
          have hlen : rest.length + 1 ≤ (c :: t).length := by
            rw [hsplit, List.length_append]
            omega
          simp only [List.length_cons] at h1 h2 hlen
          exact congrArg (m :: ·) (ih g rest (by omega) (by omega))

/-- Claim C6: `extract_fio` walks the 2–3-capitalized-token candidates in
first-match order, rejects any candidate containing an excluded
institutional word, returns the first survivor, and returns the sentinel
«Не удалось определить ФИО» when none survives.  (The source's 2-to-3-word
recheck is redundant — every candidate already has that shape — and its
final `strip()` is the identity on a match.) -/
theorem C6_fio_first_surviving_candidate :
    ∀ (full_text title : List Char),
      extract_fio full_text title = extract_fio_specModel full_text := by
  intro full_text title
  unfold extract_fio extract_fio_specModel
  have hshape : ∀ m ∈ fioFindAll full_text, FioShape m :=
    fun m hm => fioFindAllAux_shape _ _ m hm
  have hcong : (fioFindAll full_text).find? fioAccept =
      (fioFindAll full_text).find?
        (fun m => !(EXCLUDED_WORDS.any (fun excluded => strContains m excluded))) := by
    apply find?_congr_mem
    intro m hm
    unfold fioAccept
    rcases fioShape_splitWs_length m (hshape m hm) with h2 | h3
    · simp [h2]
    · simp [h3]
  rw [hcong]
  cases hfind : (fioFindAll full_text).find?
      (fun m => !(EXCLUDED_WORDS.any (fun excluded => strContains m excluded))) with
  | none => rfl
  | some m =>
    show stripWs m = m
    exact fioShape_stripWs m (hshape m (List.mem_of_find?_eq_some hfind))

/-- Claim C2 (the code contradicts it): on the documented input shape —
day `"09"`, month-year `"01.26"` — `extract_item_date` returns `None`
rather than the claimed 2026-01-09, because
`month_year.strip().replace('.', '').strip()` deletes the separator dots
before `month_year.split('.')` is taken, so the two-part check never
succeeds.  The same holds for day `"15"`, month-year `"06.72"`. -/
theorem C2_extract_item_date_separator_destroyed :
    extract_item_date
      { has_new_date := true, day_text := some (cl "09"),
        month_year_text := some (cl "01.26"), has_title_span := true,
        title_texts := [], link := none, snippet_texts := none } = none ∧
    extract_item_date
      { has_new_date := true, day_text := some (cl "15"),
        month_year_text := some (cl "06.72"), has_title_span := true,
        title_texts := [], link := none, snippet_texts := none } = none := by
  constructor <;> rfl

end Belta
